import Mathlib

/-!
# Verification of the Lonehill weather proxy (`src/functions/api/weather.js`)

A shallow embedding of the Cloudflare Pages function that proxies the
Ecowitt weather API and maintains a 48-hour rolling trend history in KV.

Modelling conventions:
* JavaScript numbers are modelled as `ℚ` (the code performs only field
  arithmetic and comparisons on finite values; no NaN/Infinity arises on
  the modelled paths).
* `Date.now()` (epoch milliseconds) is a `ℚ` parameter `now`.
* Asynchronous effects (the two upstream fetches, the KV read and write)
  are passed in as explicit outcome values, and the handler additionally
  returns a trace recording which effects it performed.
* `parseFloat` is modelled after the ECMAScript `StrDecimalLiteral`
  grammar: leading whitespace is skipped, an optional sign, then the
  longest decimal-literal prefix (digits, optional fraction, optional
  exponent); `none` models NaN.  The `Infinity` literal and exotic
  Unicode whitespace are not representable in this `ℚ` model and are not
  exercised by any property below.
* `updateTrendHistory` and `onRequestGet` are `Except`-valued: a stored
  blob that passes the truthiness shape check but whose `pressure` or
  `temperature` field is a truthy non-array makes the JS throw an
  uncaught TypeError at `push`/`filter` (outside every try/catch), and a
  `null` element throws at `p.time`; the model propagates these as
  `JsExc.typeError`.  Retained trend elements are raw JSON values, and
  the `p.time > cutoff` comparison uses the ECMAScript `ToNumber`
  coercion (so a numeric-string `time` is retained by its numeric
  value).  Declared `ToNumber` model boundaries, all unexercised by the
  properties below: hex/octal/binary string literals and string
  `Infinity` (NaN here, a number in JS) and a non-empty array as the
  coerced value (JS stringifies it through `Array.prototype.join`, whose
  number-to-string formatting has no exact `ℚ` counterpart).
-/

namespace Weather

/-- A JSON value, as `kv.get(key, ⟨type: json⟩)` can return.  Object
fields are an association list; `null` also stands for a missing KV key
(the API returns `null` then). -/
inductive Json where
  | null : Json
  | bool (b : Bool) : Json
  | num (q : ℚ) : Json
  | str (s : String) : Json
  | arr (elems : List Json) : Json
  | obj (fields : List (String × Json)) : Json

/-- JavaScript truthiness of a parsed JSON value (`stored && ...`).
JSON cannot carry `NaN`, so a number is truthy iff nonzero. -/
def Json.truthy : Json → Bool
  | .null => false
  | .bool b => b
  | .num q => q ≠ 0
  | .str s => s ≠ ""
  | .arr _ => true
  | .obj _ => true

/-- Property access `v.f` on a parsed JSON value: field lookup on
objects, `undefined` (`none`) anywhere else — `undefined` and JSON
`null` are both falsy but coerce to numbers differently, so they are
kept apart. -/
def Json.fieldOpt (v : Json) (name : String) : Option Json :=
  match v with
  | .obj fields => fields.lookup name
  | _ => none

/-- Truthiness of a possibly-`undefined` value. -/
def truthyOpt : Option Json → Bool
  | none => false
  | some j => j.truthy

/-- The uncaught JavaScript exception the code can raise: a `TypeError`
from calling `push`/`filter` on a non-array or reading a property of
`null`. -/
inductive JsExc where
  | typeError : JsExc
deriving DecidableEq

/-- A trend history as the code returns it: the two channel arrays with
their raw retained elements (the code never re-validates element shape,
so junk elements whose coerced `time` beats the cutoff stay). -/
structure History where
  pressure : List Json
  temperature : List Json

/-- The empty history the code starts from (`let history = ...`). -/
def emptyHistory : History := ⟨[], []⟩

/-- The sample object `\x7btime: now, value: v\x7d` that the code pushes. -/
def sampleJson (t v : ℚ) : Json :=
  .obj [("time", .num t), ("value", .num v)]

/-! ## `parseFloat` (ECMAScript `StrDecimalLiteral` over `ℚ`) -/

/-- Numeric value of a run of decimal digits. -/
def natOfDigits (ds : List Char) : Nat :=
  ds.foldl (fun a c => a * 10 + (c.toNat - 48)) 0

/-- The digits of an exponent part, with their sign: `0` when no digit
follows, mirroring that `parseFloat` simply stops before an incomplete
exponent (`parseFloat("1e+") == 1`). -/
def expTail (sign : ℤ) (cs : List Char) : ℤ :=
  if (cs.takeWhile Char.isDigit).isEmpty then 0
  else sign * natOfDigits (cs.takeWhile Char.isDigit)

/-- The exponent read after an `e`/`E` marker: an optional sign, then
digits. -/
def expoAfterE : List Char → ℤ
  | [] => 0
  | d :: r2 =>
    if d = '+' then expTail 1 r2
    else if d = '-' then expTail (-1) r2
    else expTail 1 (d :: r2)

/-- The exponent denoted by the remaining input, if it starts with a
valid exponent part (`e`/`E`, optional sign, at least one digit);
otherwise `0`. -/
def expoOf : List Char → ℤ
  | [] => 0
  | c :: r => if c = 'e' ∨ c = 'E' then expoAfterE r else 0

/-- Split off the fraction digits, when the remaining input starts with
a decimal point: returns them and the input left after them. -/
def fracSplit : List Char → List Char × List Char
  | [] => ([], [])
  | c :: r =>
    if c = '.' then (r.takeWhile Char.isDigit, r.dropWhile Char.isDigit)
    else ([], c :: r)

/-- Value of an unsigned literal from its integer digits, fraction
digits and remaining input (which may contribute an exponent); `none`
(NaN) when there is no digit at all. -/
def unsignedVal (intd fracd rest : List Char) : Option ℚ :=
  if intd.isEmpty && fracd.isEmpty then none
  else
    some (((natOfDigits intd : ℚ) + (natOfDigits fracd : ℚ) / (10 : ℚ) ^ fracd.length)
      * (10 : ℚ) ^ expoOf rest)

/-- Longest unsigned decimal-literal prefix: `digits [. digits] [exp]`
or `. digits [exp]`; `none` when no digit is found (NaN). -/
def parseUnsigned (cs : List Char) : Option ℚ :=
  unsignedVal (cs.takeWhile Char.isDigit)
    (fracSplit (cs.dropWhile Char.isDigit)).1
    (fracSplit (cs.dropWhile Char.isDigit)).2

/-- An optional sign, then the longest unsigned decimal-literal
prefix. -/
def parseSigned : List Char → Option ℚ
  | [] => none
  | c :: r =>
    if c = '+' then parseUnsigned r
    else if c = '-' then (parseUnsigned r).map (fun q => -q)
    else parseUnsigned (c :: r)

/-- `parseFloat(s)`: skip leading whitespace, optional sign, then the
longest decimal-literal prefix; `none` models NaN. -/
def parseFloat (s : String) : Option ℚ :=
  parseSigned (s.data.dropWhile Char.isWhitespace)

/-! ## `ToNumber` (ECMAScript string-to-number and JSON coercion)

Unlike `parseFloat`, the implicit coercion in `p.time > cutoff` uses
`ToNumber`, which must consume the entire (whitespace-trimmed) string
and maps the empty string to `0`. -/

/-- Whitespace trimmed from both ends. -/
def trimWs (cs : List Char) : List Char :=
  ((cs.dropWhile Char.isWhitespace).reverse.dropWhile Char.isWhitespace).reverse

/-- The value of a complete digit run; `none` if empty or not all
digits. -/
def allDigitsVal (sign : ℤ) (cs : List Char) : Option ℤ :=
  if !cs.isEmpty && cs.all Char.isDigit then some (sign * natOfDigits cs) else none

/-- A complete exponent after the `e`/`E` marker: optional sign then
digits consuming the whole rest. -/
def fullExpoTail : List Char → Option ℤ
  | [] => none
  | d :: r2 =>
    if d = '+' then allDigitsVal 1 r2
    else if d = '-' then allDigitsVal (-1) r2
    else allDigitsVal 1 (d :: r2)

/-- The rest of a complete numeric literal after the digits: nothing, or
a complete exponent part. -/
def fullExpoVal : List Char → Option ℤ
  | [] => some 0
  | c :: r => if c = 'e' ∨ c = 'E' then fullExpoTail r else none

/-- A complete unsigned decimal literal (`StrUnsignedDecimalLiteral`
spanning the whole input); `none` (NaN) otherwise. -/
def fullUnsignedVal (cs : List Char) : Option ℚ :=
  if (cs.takeWhile Char.isDigit).isEmpty
      && (fracSplit (cs.dropWhile Char.isDigit)).1.isEmpty then none
  else
    (fullExpoVal (fracSplit (cs.dropWhile Char.isDigit)).2).map
      (fun e => ((natOfDigits (cs.takeWhile Char.isDigit) : ℚ)
          + (natOfDigits (fracSplit (cs.dropWhile Char.isDigit)).1 : ℚ)
            / (10 : ℚ) ^ (fracSplit (cs.dropWhile Char.isDigit)).1.length)
        * (10 : ℚ) ^ e)

/-- `ToNumber` of a string (`StringToNumber`): trim whitespace, empty →
`0`, else the whole remainder must be a signed decimal literal; `none`
models NaN.  Hex/octal/binary literals and `Infinity` are outside the
`ℚ` model (declared boundary, unexercised below). -/
def stringToNumber (s : String) : Option ℚ :=
  match trimWs s.data with
  | [] => some 0
  | c :: r =>
    if c = '+' then fullUnsignedVal r
    else if c = '-' then (fullUnsignedVal r).map (fun q => -q)
    else fullUnsignedVal (c :: r)

/-- `ToNumber` of a JSON value, as the `>` comparison applies it:
`null → 0`, booleans → `0`/`1`, numbers themselves, strings via
`StringToNumber`, a JSON object → NaN (its `ToPrimitive` is
`[object Object]`), the empty array → `0` (it stringifies to `""`);
a non-empty array is the declared model boundary (JS would stringify it
through `join`). -/
def jsToNumber : Json → Option ℚ
  | .null => some 0
  | .bool b => some (if b then 1 else 0)
  | .num q => some q
  | .str s => stringToNumber s
  | .obj _ => none
  | .arr [] => some 0
  | .arr (_ :: _) => none

/-! ## Unit conversions -/

/-- `const fToC = (f) => (f - 32) * 5 / 9` -/
def fToC (f : ℚ) : ℚ := (f - 32) * 5 / 9

/-- `const inHgToHPa = (inHg) => inHg * 33.8639` -/
def inHgToHPa (inHg : ℚ) : ℚ := inHg * 33.8639

/-! ## `parseEcowittValue` -/

/-- The `.value` field of an Ecowitt reading node: the upstream delivers
JSON scalars (string, number, or null) there. -/
inductive EcoVal where
  | null : EcoVal
  | str (s : String) : EcoVal
  | num (q : ℚ) : EcoVal
deriving DecidableEq

/-- An Ecowitt reading node, whose `value` field may be absent
(`none`) or explicitly `null` (`some .null`) — both are `== null`. -/
structure EcoNode where
  value : Option EcoVal
deriving DecidableEq

/-- `parseEcowittValue(obj)`: `null` when the object or its `value`
field is missing/null or the empty string, otherwise `parseFloat` of the
field (a number round-trips through its decimal string unchanged);
`none` also models the NaN result for a string with no numeric prefix. -/
def parseEcowittValue (obj : Option EcoNode) : Option ℚ :=
  match obj with
  | none => none
  | some o =>
    match o.value with
    | none => none
    | some .null => none
    | some (.str s) => if s = "" then none else parseFloat s
    | some (.num q) => some q

/-! ## `updateTrendHistory` -/

/-- `const KV_HISTORY_KEY = ...` -/
def KV_HISTORY_KEY : String := "trend_history"

/-- `const MAX_HISTORY_HOURS = 48` -/
def MAX_HISTORY_HOURS : ℚ := 48

/-- Outcome of `kv.get(KV_HISTORY_KEY, ⟨type: json⟩)`: the call throws
(store unreachable or the stored blob is not valid JSON), or yields a
parsed JSON value — `Json.null` when the key is absent. -/
inductive KvRead where
  | readError : KvRead
  | value (v : Json) : KvRead

/-- The shape check `stored && stored.pressure && stored.temperature`:
plain truthiness — it does NOT check that the fields are arrays. -/
def shapeOk (v : Json) : Bool :=
  v.truthy && truthyOpt (v.fieldOpt "pressure") && truthyOpt (v.fieldOpt "temperature")

/-- The raw `pressure` and `temperature` values the code works with
after the read: the stored blob's fields when the read succeeded and
passed the shape check (arbitrary truthy JSON — possibly not arrays),
fresh empty arrays otherwise (read failure is caught; a falsy or
incompletely-shaped value fails the `if`). -/
def initChannels : KvRead → Json × Json
  | .readError => (.arr [], .arr [])
  | .value v =>
    if shapeOk v then
      ((v.fieldOpt "pressure").getD .null, (v.fieldOpt "temperature").getD .null)
    else (.arr [], .arr [])

/-- `channel.push(x)`: appends when the channel is an array; on any
other value `push` is not a function and a TypeError is thrown. -/
def pushChannel (chan : Json) (x : Json) : Except JsExc Json :=
  match chan with
  | .arr elems => .ok (.arr (elems ++ [x]))
  | _ => .error .typeError

/-- The conditional push `if (raw !== null) history.c.push(...)`: no-op
when the reading is absent, `push` of the new sample otherwise. -/
def pushReading (chan : Json) (now : ℚ) (reading : Option ℚ) : Except JsExc Json :=
  match reading with
  | some v => pushChannel chan (sampleJson now v)
  | none => .ok chan

/-- Evaluation of `p.time` on a retained element, coerced to a number
for the `>` comparison: reading a property of `null` throws; an object
yields its `time` field (`ToNumber` of it, NaN when absent); any other
value has no `time` property, giving `undefined` → NaN.  `none` in the
result is NaN. -/
def elemTime : Json → Except JsExc (Option ℚ)
  | .null => .error .typeError
  | .obj fields =>
    .ok (match fields.lookup "time" with
         | some j => jsToNumber j
         | none => none)
  | _ => .ok none

/-- The filter predicate `p.time > cutoff` on an already-evaluated,
coerced time: false on NaN/undefined. -/
def keepElem (cutoff : ℚ) (t : Option ℚ) : Bool :=
  match t with
  | some tv => decide (cutoff < tv)
  | none => false

/-- `elems.filter(p => p.time > cutoff)` element by element, left to
right, propagating the TypeError thrown on a `null` element. -/
def filterTrend (cutoff : ℚ) : List Json → Except JsExc (List Json)
  | [] => .ok []
  | p :: rest =>
    (elemTime p).bind fun t =>
      (filterTrend cutoff rest).bind fun tail =>
        .ok (if keepElem cutoff t then p :: tail else tail)

/-- `channel.filter(p => p.time > cutoff)`: on a non-array value
`filter` is not a function and a TypeError is thrown. -/
def filterChannel (cutoff : ℚ) (chan : Json) : Except JsExc (List Json) :=
  match chan with
  | .arr elems => filterTrend cutoff elems
  | _ => .error .typeError

/-- The `pressure` channel of the realtime payload. -/
structure PressureChannel where
  relative : Option EcoNode
deriving DecidableEq

/-- The `outdoor` channel of the realtime payload. -/
structure OutdoorChannel where
  temperature : Option EcoNode
deriving DecidableEq

/-- The `data` object of the realtime response body, as
`updateTrendHistory` reads it through optional chaining. -/
structure RealtimeData where
  pressure : Option PressureChannel
  outdoor : Option OutdoorChannel
deriving DecidableEq

/-- `realtimeData?.pressure?.relative` -/
def pressureNode (rd : Option RealtimeData) : Option EcoNode :=
  (rd.bind RealtimeData.pressure).bind PressureChannel.relative

/-- `realtimeData?.outdoor?.temperature` -/
def temperatureNode (rd : Option RealtimeData) : Option EcoNode :=
  (rd.bind RealtimeData.outdoor).bind OutdoorChannel.temperature

/-- A `kv.put` call: key, the serialized history, and `expirationTtl`
in seconds. -/
structure PutRequest where
  key : String
  content : History
  ttlSeconds : ℚ

/-- The body of `updateTrendHistory` up to the trimmed result, in the
code's evaluation order: adopt or reset the stored channels, push the
pressure sample (when the reading parses), push the temperature sample,
filter pressure, filter temperature.  Any TypeError from `push`/`filter`
on a non-array channel or from a `null` element propagates — these lines
are outside every try/catch. -/
def updateTrendHistoryCore (read : KvRead) (rd : Option RealtimeData)
    (now : ℚ) : Except JsExc History :=
  (pushReading (initChannels read).1 now
      ((parseEcowittValue (pressureNode rd)).map inHgToHPa)).bind fun pChan =>
    (pushReading (initChannels read).2 now
        ((parseEcowittValue (temperatureNode rd)).map fToC)).bind fun tChan =>
      (filterChannel (now - MAX_HISTORY_HOURS * 3600 * 1000) pChan).bind fun pres =>
        (filterChannel (now - MAX_HISTORY_HOURS * 3600 * 1000) tChan).bind fun temp =>
          .ok ⟨pres, temp⟩

/-- `updateTrendHistory(kv, realtimeData)`.  The KV read outcome, the
current time and whether the final `kv.put` succeeds are explicit
parameters.  On normal completion it returns the trimmed history handed
back to the caller together with the successful put, if any (the write
is attempted unconditionally; its failure is caught and ignored, so only
the persisted effect is traced); an uncaught TypeError propagates. -/
def updateTrendHistory (read : KvRead) (rd : Option RealtimeData) (now : ℚ)
    (writeOk : Bool) : Except JsExc (History × Option PutRequest) :=
  (updateTrendHistoryCore read rd now).map fun result =>
    (result, if writeOk then some ⟨KV_HISTORY_KEY, result, 49 * 3600⟩ else none)

/-! ## `onRequestGet` -/

/-- Outcome of one entry of `Promise.allSettled`: for `fetchEcowitt`,
rejection covers an unreachable upstream, a non-success HTTP status
(`throw new Error` with the status text), and a non-JSON body; the
reason is the rejection's rendered message. -/
inductive Settled (α : Type) where
  | rejected (reason : String) : Settled α
  | fulfilled (v : α) : Settled α

/-- Parsed body of the realtime endpoint: the numeric API status code,
an optional message and the `data` payload. -/
structure RealtimeBody where
  code : ℤ
  msg : Option String
  data : Option RealtimeData
deriving DecidableEq

/-- Parsed body of the history endpoint; its `data` payload is passed
through to the client unexamined. -/
structure HistoryBody where
  code : ℤ
  msg : Option String
  data : Json

/-- The `history_error` diagnostic object (`null` on success). -/
structure HistoryError where
  code : Option ℤ
  msg : Option String
deriving DecidableEq

/-- The JSON body of the handler's response: an `\x7berror\x7d` object or
the combined `\x7brealtime, history, history_error, trends\x7d` payload. -/
inductive RespBody where
  | error (msg : String) : RespBody
  | payload (realtime : Option RealtimeData) (history : Option Json)
      (historyErr : Option HistoryError) (trends : History) : RespBody

/-- A `jsonResponse(data, status)` result (CORS headers are the same
constant on every response and are not modelled). -/
structure Response where
  status : ℕ
  body : RespBody

/-- Effects the handler performed: whether the two upstream fetches were
issued, whether `updateTrendHistory` was invoked (hence the KV
read-modify-write cycle ran), and the successful KV write, if any. -/
structure Trace where
  fetched : Bool
  kvInvoked : Bool
  kvPut : Option PutRequest

/-- The environment bindings: the three credential variables (`""`
models an absent or empty — in either case falsy — variable) and whether
the `WEATHER_KV` namespace binding is configured. -/
structure Env where
  ECOWITT_API_KEY : String
  ECOWITT_APPLICATION_KEY : String
  ECOWITT_DEVICE_MAC : String
  WEATHER_KV : Bool

/-- `x || fallback` for an optional string field. -/
def msgOr (m : Option String) (fallback : String) : String :=
  match m with
  | some s => if s = "" then fallback else s
  | none => fallback

/-- `historyResult.status === fulfilled && historyResult.value?.code === 0
? historyResult.value.data : null` — the `history` field of the response. -/
def historyDataOf : Settled HistoryBody → Option Json
  | .fulfilled hb => if hb.code = 0 then some hb.data else none
  | .rejected _ => none

/-- The `history_error` diagnostic derived from the history outcome
(`null` on success). -/
def historyErrOf : Settled HistoryBody → Option HistoryError
  | .fulfilled hb => if hb.code = 0 then none else some ⟨some hb.code, hb.msg⟩
  | .rejected reason => some ⟨none, some (msgOr (some reason) "fetch failed")⟩

/-- `onRequestGet(⟨env⟩)`.  The settled outcomes of the two upstream
fetches, the KV read outcome, the current time and the KV write outcome
are explicit parameters; on normal completion the result pairs the HTTP
response with the trace of performed effects, and a TypeError thrown out
of the awaited `updateTrendHistory` propagates uncaught (the request
fails with a runtime error instead of a response). -/
def onRequestGet (env : Env) (realtimeResult : Settled RealtimeBody)
    (historyResult : Settled HistoryBody) (read : KvRead) (now : ℚ)
    (writeOk : Bool) : Except JsExc (Response × Trace) :=
  if env.ECOWITT_API_KEY = "" ∨ env.ECOWITT_APPLICATION_KEY = "" ∨
      env.ECOWITT_DEVICE_MAC = "" then
    .ok (⟨500, .error "Server misconfiguration: missing environment variables."⟩,
     ⟨false, false, none⟩)
  else
    match realtimeResult with
    | .rejected reason =>
      .ok (⟨502, .error ("Failed to reach Ecowitt API: " ++ reason)⟩,
       ⟨true, false, none⟩)
    | .fulfilled rt =>
      if rt.code ≠ 0 then
        .ok (⟨502, .error (msgOr rt.msg "Ecowitt API returned an error.")⟩,
         ⟨true, false, none⟩)
      else
        if env.WEATHER_KV then
          match updateTrendHistory read rt.data now writeOk with
          | .error e => .error e
          | .ok updated =>
            .ok (⟨200, .payload rt.data (historyDataOf historyResult)
                (historyErrOf historyResult) updated.1⟩,
             ⟨true, true, updated.2⟩)
        else
          .ok (⟨200, .payload rt.data (historyDataOf historyResult)
              (historyErrOf historyResult) emptyHistory⟩,
           ⟨true, false, none⟩)

/-! ## Predicates used to state the verified properties -/

/-- The reading's value field is missing, null, or the empty string. -/
def missingValue : Option EcoNode → Bool
  | none => true
  | some o =>
    match o.value with
    | none => true
    | some .null => true
    | some (.str s) => s == ""
    | some (.num _) => false

/-- A valid reading node: when a non-empty string value is present it
has a parseable numeric prefix (the upstream reports readings as decimal
strings), so `parseFloat` cannot produce NaN on it. -/
def validReading : Option EcoNode → Bool
  | some ⟨some (.str s)⟩ => (s == "") || (parseFloat s).isSome
  | _ => true

/-- First character (if any) of `t` cannot extend a decimal literal:
not a digit, a decimal point, an exponent marker or a sign. -/
def junkLeadL : List Char → Bool
  | [] => true
  | c :: _ => !(c.isDigit || c = '.' || c = 'e' || c = 'E' || c = '+' || c = '-')

/-- String version of `junkLeadL`. -/
def junkLead (t : String) : Bool := junkLeadL t.data

/-- Head of the input is a digit. -/
def headDigit : List Char → Bool
  | [] => false
  | d :: _ => d.isDigit

/-- Skip one leading sign character. -/
def signSkip : List Char → List Char
  | [] => []
  | c :: r => if c = '+' ∨ c = '-' then r else c :: r

/-- The input starts a decimal literal: a digit, or a decimal point
followed by a digit. -/
def leadNumeral : List Char → Bool
  | [] => false
  | c :: r => c.isDigit || (c = '.' && headDigit r)

/-- The string (after whitespace and an optional sign) starts a decimal
literal — it has a parseable numeric prefix.  This is exactly the
condition under which `parseFloat` does not return NaN. -/
def hasNumericLead (s : String) : Bool :=
  leadNumeral (signSkip (s.data.dropWhile Char.isWhitespace))

/-! ## Lemmas about the `parseFloat` model -/

theorem takeWhile_append_stop {p : Char → Bool} {t : List Char}
    (ht : t.takeWhile p = []) : ∀ l : List Char, (l ++ t).takeWhile p = l.takeWhile p := by
  intro l
  induction l with
  | nil => simpa using ht
  | cons c l ih =>
    by_cases h : p c
    · simp [List.takeWhile_cons_of_pos h, ih]
    · simp [List.takeWhile_cons_of_neg h]

theorem junkLeadL_head {c : Char} {r : List Char} (h : junkLeadL (c :: r) = true) :
    ¬c.isDigit = true ∧ c ≠ '.' ∧ c ≠ 'e' ∧ c ≠ 'E' ∧ c ≠ '+' ∧ c ≠ '-' := by
  simp only [junkLeadL, Bool.not_eq_eq_eq_not, Bool.not_true, Bool.or_eq_false_iff,
    decide_eq_false_iff_not] at h
  exact ⟨by simp [h.1.1.1.1.1], h.1.1.1.1.2, h.1.1.1.2, h.1.1.2, h.1.2, h.2⟩

theorem junk_takeWhile {t : List Char} (h : junkLeadL t = true) :
    t.takeWhile Char.isDigit = [] := by
  cases t with
  | nil => rfl
  | cons c r => exact List.takeWhile_cons_of_neg (junkLeadL_head h).1

theorem junk_dropWhile {t : List Char} (h : junkLeadL t = true) :
    t.dropWhile Char.isDigit = t := by
  cases t with
  | nil => rfl
  | cons c r => exact List.dropWhile_cons_of_neg (junkLeadL_head h).1

theorem junk_fracSplit {t : List Char} (h : junkLeadL t = true) :
    fracSplit t = ([], t) := by
  cases t with
  | nil => rfl
  | cons c r => simp only [fracSplit, if_neg (junkLeadL_head h).2.1]

theorem junk_expoOf {t : List Char} (h : junkLeadL t = true) : expoOf t = 0 := by
  cases t with
  | nil => rfl
  | cons c r =>
    have hc := junkLeadL_head h
    simp only [expoOf]
    rw [if_neg]
    rintro (h1 | h1)
    · exact hc.2.2.1 h1
    · exact hc.2.2.2.1 h1

theorem expTail_append {t : List Char} (ht : t.takeWhile Char.isDigit = [])
    (sign : ℤ) (l : List Char) : expTail sign (l ++ t) = expTail sign l := by
  unfold expTail
  rw [takeWhile_append_stop ht]

theorem expoAfterE_append {t : List Char} (h : junkLeadL t = true) :
    ∀ r : List Char, expoAfterE (r ++ t) = expoAfterE r := by
  intro r
  cases r with
  | nil =>
    simp only [List.nil_append, expoAfterE]
    cases t with
    | nil => rfl
    | cons d r2 =>
      have hd := junkLeadL_head h
      simp only [expoAfterE, if_neg hd.2.2.2.2.1, if_neg hd.2.2.2.2.2]
      unfold expTail
      rw [junk_takeWhile h]
      rfl
  | cons d r2 =>
    have ht := junk_takeWhile h
    simp only [List.cons_append, expoAfterE]
    by_cases h1 : d = '+'
    · rw [if_pos h1, if_pos h1, expTail_append ht]
    · rw [if_neg h1, if_neg h1]
      by_cases h2 : d = '-'
      · rw [if_pos h2, if_pos h2, expTail_append ht]
      · rw [if_neg h2, if_neg h2, ← List.cons_append, expTail_append ht]

theorem expoOf_append {t : List Char} (h : junkLeadL t = true) :
    ∀ l : List Char, expoOf (l ++ t) = expoOf l := by
  intro l
  cases l with
  | nil => simpa using junk_expoOf h
  | cons c r =>
    simp only [List.cons_append, expoOf]
    by_cases hc : c = 'e' ∨ c = 'E'
    · rw [if_pos hc, if_pos hc, expoAfterE_append h]
    · rw [if_neg hc, if_neg hc]

theorem unsignedVal_congr_rest {a b r1 : List Char} (r2 : List Char)
    (h : expoOf r1 = expoOf r2) : unsignedVal a b r1 = unsignedVal a b r2 := by
  unfold unsignedVal
  rw [h]

theorem parseUnsigned_append {t : List Char} (h : junkLeadL t = true)
    (cs : List Char) (q : ℚ) (hq : parseUnsigned cs = some q) :
    parseUnsigned (cs ++ t) = some q := by
  unfold parseUnsigned at hq ⊢
  rw [takeWhile_append_stop (junk_takeWhile h)]
  by_cases hR : cs.dropWhile Char.isDigit = []
  · rw [List.dropWhile_append, if_pos (by simp [hR]), junk_dropWhile h, junk_fracSplit h]
    rw [hR] at hq
    rw [unsignedVal_congr_rest ([] : List Char) (by rw [junk_expoOf h]; rfl)]
    exact hq
  · rw [List.dropWhile_append, if_neg (by simpa using hR)]
    obtain ⟨c, r, hcr⟩ := List.exists_cons_of_ne_nil hR
    rw [hcr] at hq ⊢
    simp only [List.cons_append, fracSplit] at hq ⊢
    by_cases hc : c = '.'
    · rw [if_pos hc] at hq ⊢
      rw [takeWhile_append_stop (junk_takeWhile h)]
      by_cases hr2 : r.dropWhile Char.isDigit = []
      · rw [List.dropWhile_append, if_pos (by simp [hr2]), junk_dropWhile h]
        rw [hr2] at hq
        rw [unsignedVal_congr_rest ([] : List Char) (by rw [junk_expoOf h]; rfl)]
        exact hq
      · rw [List.dropWhile_append, if_neg (by simpa using hr2)]
        rw [unsignedVal_congr_rest _ (expoOf_append h _)]
        exact hq
    · rw [if_neg hc] at hq ⊢
      rw [← List.cons_append, unsignedVal_congr_rest _ (expoOf_append h _)]
      exact hq

theorem parseSigned_append {t : List Char} (h : junkLeadL t = true)
    (cs : List Char) (q : ℚ) (hq : parseSigned cs = some q) :
    parseSigned (cs ++ t) = some q := by
  cases cs with
  | nil => exact absurd hq (by simp [parseSigned])
  | cons c r =>
    simp only [List.cons_append, parseSigned] at hq ⊢
    by_cases h1 : c = '+'
    · rw [if_pos h1] at hq ⊢
      exact parseUnsigned_append h _ _ hq
    · rw [if_neg h1] at hq ⊢
      by_cases h2 : c = '-'
      · rw [if_pos h2] at hq ⊢
        cases hpu : parseUnsigned r with
        | none => rw [hpu] at hq; exact absurd hq (by simp)
        | some q0 =>
          rw [hpu] at hq
          rw [parseUnsigned_append h _ _ hpu]
          simpa using hq
      · rw [if_neg h2] at hq ⊢
        rw [← List.cons_append]
        exact parseUnsigned_append h _ _ hq

theorem parseFloat_data_ne {s : String} {q : ℚ} (hq : parseFloat s = some q) :
    s.data.dropWhile Char.isWhitespace ≠ [] := by
  intro hnil
  unfold parseFloat at hq
  rw [hnil] at hq
  exact absurd hq (by simp [parseSigned])

theorem parseFloat_append {s t : String} {q : ℚ} (hq : parseFloat s = some q)
    (h : junkLead t = true) : parseFloat (s ++ t) = some q := by
  unfold parseFloat at hq ⊢
  rw [String.data_append, List.dropWhile_append,
    if_neg (by simpa using parseFloat_data_ne hq)]
  exact parseSigned_append h _ _ hq

theorem parseUnsigned_isSome (cs : List Char) :
    (parseUnsigned cs).isSome = leadNumeral cs := by
  cases cs with
  | nil => rfl
  | cons c r =>
    unfold parseUnsigned unsignedVal leadNumeral
    by_cases hd : c.isDigit = true
    · rw [List.takeWhile_cons_of_pos hd]
      simp [hd]
    · rw [List.takeWhile_cons_of_neg hd, List.dropWhile_cons_of_neg hd]
      simp only [fracSplit]
      by_cases hc : c = '.'
      · rw [if_pos hc]
        cases r with
        | nil => simp [hd, hc, headDigit]
        | cons d r2 =>
          by_cases hd2 : d.isDigit = true
          · rw [List.takeWhile_cons_of_pos hd2]
            simp [hd, hc, headDigit, hd2]
          · rw [List.takeWhile_cons_of_neg hd2]
            simp [hd, hc, headDigit, hd2]
      · rw [if_neg hc]
        simp [hd, hc]

theorem parseFloat_isSome (s : String) :
    (parseFloat s).isSome = hasNumericLead s := by
  unfold parseFloat hasNumericLead
  cases hcs : s.data.dropWhile Char.isWhitespace with
  | nil => rfl
  | cons c r =>
    simp only [parseSigned, signSkip]
    by_cases h1 : c = '+'
    · rw [if_pos h1, if_pos (Or.inl h1)]
      exact parseUnsigned_isSome r
    · by_cases h2 : c = '-'
      · rw [if_neg h1, if_pos h2, if_pos (Or.inr h2), ← parseUnsigned_isSome r]
        cases parseUnsigned r <;> rfl
      · rw [if_neg h1, if_neg h2, if_neg (by rintro (h | h) <;> [exact h1 h; exact h2 h])]
        exact parseUnsigned_isSome (c :: r)

/-! ## Lemmas about `updateTrendHistory` -/

theorem filterTrend_ok_mem {cutoff : ℚ} {l res : List Json}
    (h : filterTrend cutoff l = .ok res) :
    ∀ e ∈ res, ∃ t, elemTime e = .ok (some t) ∧ cutoff < t := by
  induction l generalizing res with
  | nil =>
    intro e he
    simp only [filterTrend, Except.ok.injEq] at h
    rw [← h] at he
    exact absurd he (List.not_mem_nil e)
  | cons p rest ih =>
    intro e he
    simp only [filterTrend] at h
    cases het : elemTime p with
    | error err => rw [het] at h; simp only [Except.bind] at h; exact absurd h (by simp)
    | ok t =>
      rw [het] at h
      simp only [Except.bind] at h
      cases hrec : filterTrend cutoff rest with
      | error err => rw [hrec] at h; simp only [Except.bind] at h; exact absurd h (by simp)
      | ok tail =>
        rw [hrec] at h
        simp only [Except.bind, Except.ok.injEq] at h
        rw [← h] at he
        by_cases hk : keepElem cutoff t = true
        · rw [if_pos hk] at he
          rcases List.mem_cons.mp he with heq | hmem
          · cases t with
            | none => exact absurd hk (by simp [keepElem])
            | some tv =>
              refine ⟨tv, heq ▸ het, ?_⟩
              simpa [keepElem] using hk
          · exact ih hrec e hmem
        · rw [if_neg hk] at he
          exact ih hrec e he

theorem filterChannel_ok_mem {cutoff : ℚ} {ch : Json} {res : List Json}
    (h : filterChannel cutoff ch = .ok res) :
    ∀ e ∈ res, ∃ t, elemTime e = .ok (some t) ∧ cutoff < t := by
  cases ch with
  | arr elems => exact filterTrend_ok_mem (by simpa [filterChannel] using h)
  | null => exact absurd h (by simp [filterChannel])
  | bool b => exact absurd h (by simp [filterChannel])
  | num q => exact absurd h (by simp [filterChannel])
  | str s => exact absurd h (by simp [filterChannel])
  | obj fields => exact absurd h (by simp [filterChannel])

theorem core_eval {read : KvRead} {rd : Option RealtimeData} {now : ℚ}
    {pChan tChan : Json} {pres temp : List Json}
    (h1 : pushReading (initChannels read).1 now
        ((parseEcowittValue (pressureNode rd)).map inHgToHPa) = .ok pChan)
    (h2 : pushReading (initChannels read).2 now
        ((parseEcowittValue (temperatureNode rd)).map fToC) = .ok tChan)
    (h3 : filterChannel (now - MAX_HISTORY_HOURS * 3600 * 1000) pChan = .ok pres)
    (h4 : filterChannel (now - MAX_HISTORY_HOURS * 3600 * 1000) tChan = .ok temp) :
    updateTrendHistoryCore read rd now = .ok ⟨pres, temp⟩ := by
  unfold updateTrendHistoryCore
  simp only [h1, h2, h3, h4, Except.bind]

theorem core_ok_filtered {read : KvRead} {rd : Option RealtimeData} {now : ℚ}
    {h : History} (hok : updateTrendHistoryCore read rd now = .ok h) :
    (∃ pChan, filterChannel (now - MAX_HISTORY_HOURS * 3600 * 1000) pChan =
        .ok h.pressure) ∧
    (∃ tChan, filterChannel (now - MAX_HISTORY_HOURS * 3600 * 1000) tChan =
        .ok h.temperature) := by
  unfold updateTrendHistoryCore at hok
  cases h1 : pushReading (initChannels read).1 now
      ((parseEcowittValue (pressureNode rd)).map inHgToHPa) with
  | error e => rw [h1] at hok; simp only [Except.bind] at hok; exact absurd hok (by simp)
  | ok pChan =>
    rw [h1] at hok
    simp only [Except.bind] at hok
    cases h2 : pushReading (initChannels read).2 now
        ((parseEcowittValue (temperatureNode rd)).map fToC) with
    | error e => rw [h2] at hok; simp only [Except.bind] at hok; exact absurd hok (by simp)
    | ok tChan =>
      rw [h2] at hok
      simp only [Except.bind] at hok
      cases h3 : filterChannel (now - MAX_HISTORY_HOURS * 3600 * 1000) pChan with
      | error e => rw [h3] at hok; simp only [Except.bind] at hok; exact absurd hok (by simp)
      | ok pres =>
        rw [h3] at hok
        simp only [Except.bind] at hok
        cases h4 : filterChannel (now - MAX_HISTORY_HOURS * 3600 * 1000) tChan with
        | error e => rw [h4] at hok; simp only [Except.bind] at hok; exact absurd hok (by simp)
        | ok temp =>
          rw [h4] at hok
          simp only [Except.bind, Except.ok.injEq] at hok
          rw [← hok]
          exact ⟨⟨pChan, h3⟩, ⟨tChan, h4⟩⟩

theorem update_ok_core {read : KvRead} {rd : Option RealtimeData} {now : ℚ}
    {w : Bool} {h : History} {put : Option PutRequest}
    (hok : updateTrendHistory read rd now w = .ok (h, put)) :
    updateTrendHistoryCore read rd now = .ok h := by
  unfold updateTrendHistory at hok
  cases hc : updateTrendHistoryCore read rd now with
  | error e => rw [hc] at hok; exact absurd hok (by simp [Except.map])
  | ok h0 =>
    rw [hc] at hok
    simp only [Except.map, Except.ok.injEq, Prod.mk.injEq] at hok
    rw [hok.1]

/-! ## Verified properties -/

/-- C1.  For every completing call of `updateTrendHistory`, after the
trimming step every retained element of both the pressure and
temperature sequences has a `time` whose coerced numeric value satisfies
`time > now - windowHours*3600000` (with `windowHours = 48`), and a
stored element whose `time` is exactly `now - windowHours*3600000` is
evicted (strict inequality). -/
theorem updateTrendHistory_window (read : KvRead) (rd : Option RealtimeData)
    (now : ℚ) (writeOk : Bool) (h : History) (put : Option PutRequest)
    (hok : updateTrendHistory read rd now writeOk = .ok (h, put)) :
    (∀ e ∈ h.pressure, ∃ t, elemTime e = .ok (some t) ∧ t > now - 48 * 3600000) ∧
    (∀ e ∈ h.temperature, ∃ t, elemTime e = .ok (some t) ∧ t > now - 48 * 3600000) ∧
    (∀ e : Json, elemTime e = .ok (some (now - 48 * 3600000)) →
        e ∉ h.pressure ∧ e ∉ h.temperature) := by
  have hm : now - MAX_HISTORY_HOURS * 3600 * 1000 = now - 48 * 3600000 := by
    norm_num [MAX_HISTORY_HOURS]
  obtain ⟨⟨pChan, hp⟩, ⟨tChan, ht⟩⟩ := core_ok_filtered (update_ok_core hok)
  refine ⟨fun e he => ?_, fun e he => ?_, fun e hte => ⟨fun he => ?_, fun he => ?_⟩⟩
  · obtain ⟨t, h1, h2⟩ := filterChannel_ok_mem hp e he
    exact ⟨t, h1, hm ▸ h2⟩
  · obtain ⟨t, h1, h2⟩ := filterChannel_ok_mem ht e he
    exact ⟨t, h1, hm ▸ h2⟩
  · obtain ⟨t, h1, h2⟩ := filterChannel_ok_mem hp e he
    rw [h1, Except.ok.injEq, Option.some.injEq] at hte
    rw [hte, hm] at h2
    exact lt_irrefl _ h2
  · obtain ⟨t, h1, h2⟩ := filterChannel_ok_mem ht e he
    rw [h1, Except.ok.injEq, Option.some.injEq] at hte
    rw [hte, hm] at h2
    exact lt_irrefl _ h2

/-- Witness for C1: with `now = 0` the cutoff is `-172800000`; a stored
pressure sample at exactly that boundary time is evicted, leaving the
empty history. -/
theorem updateTrendHistory_window_witness :
    updateTrendHistory
        (.value (.obj [("pressure", .arr [sampleJson (-172800000) 5]),
                       ("temperature", .arr [])]))
        none 0 true =
      .ok (⟨[], []⟩, some ⟨KV_HISTORY_KEY, ⟨[], []⟩, 49 * 3600⟩) ∧
    sampleJson (-172800000) 5 ∉ (History.mk [] []).pressure := by
  have hkeep : keepElem ((0 : ℚ) - MAX_HISTORY_HOURS * 3600 * 1000)
      (some (-172800000)) = false := by
    simp only [keepElem]
    rw [decide_eq_false]
    norm_num [MAX_HISTORY_HOURS]
  have h3 : filterChannel ((0 : ℚ) - MAX_HISTORY_HOURS * 3600 * 1000)
      (.arr [sampleJson (-172800000) 5]) = .ok [] := by
    simp only [filterChannel, filterTrend,
      show elemTime (sampleJson (-172800000) 5) = .ok (some (-172800000)) from rfl,
      Except.bind, hkeep]
    rfl
  have h1 : pushReading
      (initChannels (.value (.obj [("pressure", .arr [sampleJson (-172800000) 5]),
        ("temperature", .arr [])]))).1 0
      ((parseEcowittValue (pressureNode none)).map inHgToHPa) =
      .ok (.arr [sampleJson (-172800000) 5]) := rfl
  have h2 : pushReading
      (initChannels (.value (.obj [("pressure", .arr [sampleJson (-172800000) 5]),
        ("temperature", .arr [])]))).2 0
      ((parseEcowittValue (temperatureNode none)).map fToC) = .ok (.arr []) := rfl
  have h4 : filterChannel ((0 : ℚ) - MAX_HISTORY_HOURS * 3600 * 1000)
      (.arr ([] : List Json)) = .ok [] := rfl
  have hok : updateTrendHistory
      (.value (.obj [("pressure", .arr [sampleJson (-172800000) 5]),
                     ("temperature", .arr [])]))
      none 0 true =
      .ok (⟨[], []⟩, some ⟨KV_HISTORY_KEY, ⟨[], []⟩, 49 * 3600⟩) := by
    unfold updateTrendHistory
    rw [core_eval h1 h2 h3 h4]
    rfl
  refine ⟨hok, ?_⟩
  have heq : elemTime (sampleJson (-172800000) 5) =
      .ok (some ((0 : ℚ) - 48 * 3600000)) := by
    rw [show ((0 : ℚ) - 48 * 3600000) = -172800000 by norm_num]
    rfl
  exact ((updateTrendHistory_window _ none 0 true ⟨[], []⟩ _ hok).2.2
    (sampleJson (-172800000) 5) heq).1

/-- C2, code bug.  The claim (and the spec's read contract) says every
corrupt or mis-shaped stored value is replaced by the empty history with
no error propagated, and the current sample still appended.  But a blob
such as `\x7bpressure: \x7b\x7d, temperature: \x7b\x7d\x7d` — corrupt, since its
sequences are not arrays — passes the truthiness shape check, is
adopted, and then `history.pressure.push` throws a TypeError outside
every try/catch: `updateTrendHistory` propagates the error, substitutes
nothing and appends nothing. -/
theorem updateTrendHistory_nonarray_crash :
    shapeOk (.obj [("pressure", .obj []), ("temperature", .obj [])]) = true ∧
    parseEcowittValue (pressureNode (some ⟨some ⟨some ⟨some (.num 1)⟩⟩, none⟩)) =
      some 1 ∧
    updateTrendHistory (.value (.obj [("pressure", .obj []), ("temperature", .obj [])]))
        (some ⟨some ⟨some ⟨some (.num 1)⟩⟩, none⟩) 100 true = .error .typeError :=
  ⟨rfl, rfl, rfl⟩

/-- C8.  A failure of the persistence write is swallowed: the
post-filter in-memory history (or the propagated exception) is the same
whether or not the write succeeded; and every successful write persists
exactly the returned history under the fixed key `trend_history` with an
expiry of the window plus one hour (49 hours). -/
theorem updateTrendHistory_write_swallowed (read : KvRead) (rd : Option RealtimeData)
    (now : ℚ) :
    (∀ w1 w2 : Bool, (updateTrendHistory read rd now w1).map Prod.fst =
        (updateTrendHistory read rd now w2).map Prod.fst) ∧
    (∀ (w : Bool) (h : History) (pr : PutRequest),
        updateTrendHistory read rd now w = .ok (h, some pr) →
        pr.key = "trend_history" ∧ pr.ttlSeconds = 49 * 3600 ∧
        pr.ttlSeconds = (MAX_HISTORY_HOURS + 1) * 3600 ∧ pr.content = h) := by
  constructor
  · intro w1 w2
    unfold updateTrendHistory
    cases hc : updateTrendHistoryCore read rd now <;> simp [Except.map]
  · intro w h pr hpr
    unfold updateTrendHistory at hpr
    cases hc : updateTrendHistoryCore read rd now with
    | error e => rw [hc] at hpr; exact absurd hpr (by simp [Except.map])
    | ok h0 =>
      rw [hc] at hpr
      simp only [Except.map, Except.ok.injEq, Prod.mk.injEq] at hpr
      obtain ⟨hh, hput⟩ := hpr
      cases w with
      | false => exact absurd hput (by simp)
      | true =>
        simp only [if_pos, Option.some.injEq] at hput
        rw [← hput, ← hh]
        exact ⟨rfl, rfl, by norm_num [MAX_HISTORY_HOURS], rfl⟩

/-- Witness for C8 at a concrete completing call. -/
theorem updateTrendHistory_write_swallowed_witness :
    updateTrendHistory .readError none 0 true =
      .ok (emptyHistory, some ⟨KV_HISTORY_KEY, emptyHistory, 49 * 3600⟩) ∧
    (⟨KV_HISTORY_KEY, emptyHistory, 49 * 3600⟩ : PutRequest).key = "trend_history" :=
  ⟨rfl, ((updateTrendHistory_write_swallowed .readError none 0).2 true emptyHistory
      ⟨KV_HISTORY_KEY, emptyHistory, 49 * 3600⟩ rfl).1⟩

/-- C9.  The unit conversions compute exactly the stated formulas:
`fToC f = (f - 32) * 5/9` with `fToC 32 = 0`, and
`inHgToHPa x = x * 33.8639` with `inHgToHPa 1 = 33.8639`; both are total
functions on `ℚ`. -/
theorem unit_conversions_exact :
    (∀ f : ℚ, fToC f = (f - 32) * 5 / 9) ∧ fToC 32 = 0 ∧
    (∀ x : ℚ, inHgToHPa x = x * 33.8639) ∧ inHgToHPa 1 = 33.8639 :=
  ⟨fun _ => rfl, by norm_num [fToC], fun _ => rfl, by norm_num [inHgToHPa]⟩

theorem creds_ok {env : Env} (hA : env.ECOWITT_API_KEY ≠ "")
    (hB : env.ECOWITT_APPLICATION_KEY ≠ "") (hC : env.ECOWITT_DEVICE_MAC ≠ "") :
    ¬(env.ECOWITT_API_KEY = "" ∨ env.ECOWITT_APPLICATION_KEY = "" ∨
        env.ECOWITT_DEVICE_MAC = "") := by
  rintro (h | h | h)
  exacts [hA h, hB h, hC h]

/-- C7.  When any of the three required credentials is absent, the
handler responds 500 with an error body and performs no upstream
network calls (and no KV access). -/
theorem onRequestGet_missing_credentials (env : Env)
    (h : env.ECOWITT_API_KEY = "" ∨ env.ECOWITT_APPLICATION_KEY = "" ∨
        env.ECOWITT_DEVICE_MAC = "")
    (realtimeResult : Settled RealtimeBody) (historyResult : Settled HistoryBody)
    (read : KvRead) (now : ℚ) (writeOk : Bool) :
    onRequestGet env realtimeResult historyResult read now writeOk =
      .ok (⟨500, .error "Server misconfiguration: missing environment variables."⟩,
       ⟨false, false, none⟩) := by
  unfold onRequestGet
  rw [if_pos h]

/-- Witness for C7: all credentials empty. -/
theorem onRequestGet_missing_credentials_witness :
    (("" : String) = "" ∨ ("" : String) = "" ∨ ("" : String) = "") ∧
    onRequestGet ⟨"", "", "", true⟩ (.rejected "down") (.rejected "down") .readError 0 true =
      .ok (⟨500, .error "Server misconfiguration: missing environment variables."⟩,
       ⟨false, false, none⟩) :=
  ⟨Or.inl rfl, onRequestGet_missing_credentials _ (Or.inl rfl) _ _ _ 0 true⟩

/-- C4.  When the current-reading fetch fails — the promise rejected
(e.g. HTTP 503) or the parsed body's status code is non-zero — the
handler responds 502 carrying the failure reason, and does not invoke
`updateTrendHistory`: no KV write occurs, so the persisted history is
unchanged. -/
theorem onRequestGet_realtime_failure (env : Env)
    (hA : env.ECOWITT_API_KEY ≠ "") (hB : env.ECOWITT_APPLICATION_KEY ≠ "")
    (hC : env.ECOWITT_DEVICE_MAC ≠ "")
    (historyResult : Settled HistoryBody) (read : KvRead) (now : ℚ) (writeOk : Bool) :
    (∀ reason, onRequestGet env (.rejected reason) historyResult read now writeOk =
        .ok (⟨502, .error ("Failed to reach Ecowitt API: " ++ reason)⟩,
         ⟨true, false, none⟩)) ∧
    (∀ rt : RealtimeBody, rt.code ≠ 0 →
        onRequestGet env (.fulfilled rt) historyResult read now writeOk =
          .ok (⟨502, .error (msgOr rt.msg "Ecowitt API returned an error.")⟩,
           ⟨true, false, none⟩)) := by
  constructor
  · intro reason
    unfold onRequestGet
    rw [if_neg (creds_ok hA hB hC)]
  · intro rt hrt
    unfold onRequestGet
    rw [if_neg (creds_ok hA hB hC)]
    simp only [if_pos hrt]

/-- Witness for C4: a rejected current-reading fetch (HTTP 503) yields
502 and an untouched trend history. -/
theorem onRequestGet_realtime_failure_witness :
    ("k" : String) ≠ "" ∧
    onRequestGet ⟨"k", "a", "m", true⟩ (.rejected "Error: HTTP 503")
        (.rejected "x") .readError 0 true =
      .ok (⟨502, .error ("Failed to reach Ecowitt API: " ++ "Error: HTTP 503")⟩,
       ⟨true, false, none⟩) :=
  ⟨by decide,
   (onRequestGet_realtime_failure ⟨"k", "a", "m", true⟩ (by decide) (by decide)
      (by decide) (.rejected "x") .readError 0 true).1 "Error: HTTP 503"⟩

/-- C5, code bug.  The claim (and the spec's graceful-degradation
contract) says a request whose current-reading fetch succeeds while only
the history fetch fails is answered 200 with `history` null and the
updated trends.  But with the crash blob
`\x7bpressure: \x7b\x7d, temperature: \x7b\x7d\x7d` in KV, the awaited
`updateTrendHistory` throws an uncaught TypeError that propagates out of
`onRequestGet`: the request fails with a runtime error and no 200
response is produced, even though the credentials are present, the
realtime body has status code 0 and only the history fetch failed. -/
theorem onRequestGet_crash_blob :
    onRequestGet ⟨"k", "a", "m", true⟩
        (.fulfilled ⟨0, none, some ⟨some ⟨some ⟨some (.num 1)⟩⟩, none⟩⟩)
        (.rejected "Error: HTTP 500")
        (.value (.obj [("pressure", .obj []), ("temperature", .obj [])]))
        100 true = .error .typeError :=
  rfl

/-- Counterexample to C6 as stated: with the persistence layer not
configured but the current-reading fetch failing, the handler returns
502, not 200 — so it does not return 200 "regardless of upstream
success". -/
theorem onRequestGet_noKv_counterexample :
    onRequestGet ⟨"k", "a", "m", false⟩ (.rejected "Error: HTTP 503")
        (.rejected "Error: HTTP 503") .readError 0 true =
      .ok (⟨502, .error ("Failed to reach Ecowitt API: " ++ "Error: HTTP 503")⟩,
       ⟨true, false, none⟩) ∧
    (502 : ℕ) ≠ 200 :=
  ⟨rfl, by decide⟩

/-- C6, amended.  When the persistence layer is not configured and
the current-reading fetch succeeds, the handler skips
`updateTrendHistory`, uses the empty history, and returns 200 with
`trends = ⟨[], []⟩` regardless of the history call's outcome; when the
current-reading fetch fails, the 502 path of C4 applies instead. -/
theorem onRequestGet_noKv (env : Env)
    (hA : env.ECOWITT_API_KEY ≠ "") (hB : env.ECOWITT_APPLICATION_KEY ≠ "")
    (hC : env.ECOWITT_DEVICE_MAC ≠ "") (hkv : env.WEATHER_KV = false)
    (rt : RealtimeBody) (hcode : rt.code = 0)
    (hist : Settled HistoryBody) (read : KvRead) (now : ℚ) (writeOk : Bool) :
    onRequestGet env (.fulfilled rt) hist read now writeOk =
      .ok (⟨200, .payload rt.data (historyDataOf hist) (historyErrOf hist) emptyHistory⟩,
       ⟨true, false, none⟩) := by
  unfold onRequestGet
  rw [if_neg (creds_ok hA hB hC)]
  simp only [hcode, if_neg (show ¬(0 : ℤ) ≠ 0 from fun h => h rfl), hkv,
    Bool.false_eq_true, if_false]

/-- Witness for C6 (amended): KV not configured, realtime succeeds,
history rejected — 200 with empty trends. -/
theorem onRequestGet_noKv_witness :
    (onRequestGet ⟨"k", "a", "m", false⟩ (.fulfilled ⟨0, none, none⟩)
        (.rejected "Error: HTTP 500") .readError 0 true) =
      .ok (⟨200, .payload none (historyDataOf (.rejected "Error: HTTP 500"))
          (historyErrOf (.rejected "Error: HTTP 500")) emptyHistory⟩,
       ⟨true, false, none⟩) :=
  onRequestGet_noKv ⟨"k", "a", "m", false⟩ (by decide) (by decide) (by decide) rfl
    ⟨0, none, none⟩ rfl (.rejected "Error: HTTP 500") .readError 0 true

/-- C3.  For every valid current-reading payload (one whose value,
when present as a non-empty string, has a parseable numeric prefix),
`parseEcowittValue` returns `none` iff the value field is missing, null,
or the empty string; otherwise it returns the parsed value — including a
legitimate `0`, never `0` as a substitute for missing. -/
theorem parseEcowittValue_missing_iff (obj : Option EcoNode)
    (h : validReading obj = true) :
    (parseEcowittValue obj = none ↔ missingValue obj = true) ∧
    (∀ q : ℚ, obj = some ⟨some (.num q)⟩ → parseEcowittValue obj = some q) ∧
    (∀ s : String, obj = some ⟨some (.str s)⟩ → s ≠ "" →
        parseEcowittValue obj = parseFloat s) := by
  refine ⟨?_, ?_, ?_⟩
  · match obj with
    | none => simp [parseEcowittValue, missingValue]
    | some ⟨none⟩ => simp [parseEcowittValue, missingValue]
    | some ⟨some .null⟩ => simp [parseEcowittValue, missingValue]
    | some ⟨some (.num q)⟩ => simp [parseEcowittValue, missingValue]
    | some ⟨some (.str s)⟩ =>
      by_cases hs : s = ""
      · simp [parseEcowittValue, missingValue, hs]
      · have hsome : (parseFloat s).isSome = true := by
          simpa [validReading, hs] using h
        simp only [parseEcowittValue, if_neg hs, missingValue]
        constructor
        · intro h0
          rw [h0] at hsome
          exact absurd hsome (by simp)
        · intro h0
          exact absurd h0 (by simp [hs])
  · intro q hq
    rw [hq]
    rfl
  · intro s hs hne
    rw [hs]
    simp [parseEcowittValue, hne]

/-- Witness for C3: a reading of `0` is returned as `0`, not absent. -/
theorem parseEcowittValue_missing_iff_witness :
    validReading (some ⟨some (.num 0)⟩) = true ∧
    parseEcowittValue (some ⟨some (.num 0)⟩) = some 0 :=
  ⟨rfl, (parseEcowittValue_missing_iff (some ⟨some (.num 0)⟩) rfl).2.1 0 rfl⟩

/-- C10.  A string value made of a parseable numeric prefix followed
by trailing non-numeric characters (such as `29.8 inHg`) parses to the
numeric value of that prefix rather than to absent; and a non-empty
string value yields absent exactly when it has no parseable numeric
prefix. -/
theorem parseEcowittValue_numeric_prefix_junk :
    (∀ (s t : String) (q : ℚ), parseFloat s = some q → junkLead t = true →
        parseEcowittValue (some ⟨some (.str (s ++ t))⟩) = some q) ∧
    (∀ u : String, u ≠ "" →
        (parseEcowittValue (some ⟨some (.str u)⟩) = none ↔
          hasNumericLead u = false)) := by
  constructor
  · intro s t q hq hj
    have hne : s ++ t ≠ "" := by
      intro h0
      apply parseFloat_data_ne hq
      have hdata : s.data ++ t.data = [] := by
        rw [← String.data_append, h0]
      rw [(List.append_eq_nil.mp hdata).1]
      rfl
    simp only [parseEcowittValue, if_neg hne]
    exact parseFloat_append hq hj
  · intro u hu
    simp only [parseEcowittValue, if_neg hu]
    rw [← parseFloat_isSome]
    cases parseFloat u <;> simp

/-- Witness for C10: `29.8 inHg` parses to `29.8` (= 149/5). -/
theorem parseEcowittValue_numeric_prefix_junk_witness :
    parseFloat "29.8" = some (149 / 5) ∧ junkLead " inHg" = true ∧
    parseEcowittValue (some ⟨some (.str ("29.8" ++ " inHg"))⟩) = some (149 / 5) := by
  have h1 : parseFloat "29.8" = some (149 / 5) := by
    simp +decide [parseFloat, parseSigned, parseUnsigned, unsignedVal, fracSplit,
      expoOf, expoAfterE, natOfDigits, expTail]
    norm_num
  exact ⟨h1, rfl, parseEcowittValue_numeric_prefix_junk.1 "29.8" " inHg" _ h1 rfl⟩

end Weather
